import Mathlib

/-!
Verification of the palette-generation core of the `glasbey` repository
(`glasbey.py`).

Shallow embedding conventions:

* Floating-point values of the source are modelled as exact rationals (`ℚ`).
* A color is a point of the 3-dimensional perceptual space (CAM02-UCS
  J', a', b'), or of the polar JCh space, as a triple of rationals.
* `np.linalg.norm(x - y)` values are nonnegative reals of the form `√q`;
  they are represented exactly by the structure `NNR` below, which stores
  the square.  All operations the source performs on such values
  (`np.minimum`, `np.argmax`, comparison against the literals `1000` and
  `35`) are order computations, and the order on represented values
  coincides with the order on the stored squares, so the representation is
  exact.
* The external collaborator `cspace_convert` is a pure per-color function;
  batch conversion of an array converts each row independently, so it is
  modelled as a function `Color → Color` mapped over lists.
* File system effects are made explicit: `save_palette` returns the numeric
  content of the lines it writes, and the color-table cache load is an
  `Option` argument.
-/

namespace Glasbey

/-- A color: three rational coordinates (a row of a numpy `(n, 3)` array). -/
abbrev Color := ℚ × ℚ × ℚ

/-- Default color used to totalize partial indexing (`palette[-1]`,
`colors[i]`); every theorem that touches it carries the bounds that make the
source's indexing well defined. -/
def colDflt : Color := (0, 0, 0)

/-- Nonnegative real of the form `√q`: the exact value of an
`np.linalg.norm` result on rational inputs.  The field `sq` stores the
square of the represented value.  Since `√` is strictly monotone on
`[0, ∞)`, order and equality of represented values coincide with order and
equality of the squares. -/
structure NNR where
  sq : ℚ
deriving DecidableEq

instance : LE NNR := ⟨fun a b => a.sq ≤ b.sq⟩

instance : LT NNR := ⟨fun a b => a.sq < b.sq⟩

instance (a b : NNR) : Decidable (a ≤ b) := inferInstanceAs (Decidable (a.sq ≤ b.sq))

instance (a b : NNR) : Decidable (a < b) := inferInstanceAs (Decidable (a.sq < b.sq))

/-- Pointwise minimum, as computed by `np.minimum`. -/
instance : Min NNR := ⟨fun a b => if a.sq ≤ b.sq then a else b⟩

/-- The nonnegative real `q` itself (for `0 ≤ q`), in `√`-representation:
`q = √(q·q)`.  Embeds the literals `1000` and `35` of the source. -/
def NNR.ofRat (q : ℚ) : NNR := ⟨q * q⟩

/-- Default `NNR` used to totalize `List.getD` on distance arrays. -/
def dDflt : NNR := NNR.ofRat 0

/-- Euclidean distance `np.linalg.norm(a - b)` between two colors, in
`√`-representation (the stored square is the sum of squared coordinate
differences). -/
def dist (a b : Color) : NNR :=
  ⟨(a.1 - b.1) * (a.1 - b.1) + (a.2.1 - b.2.1) * (a.2.1 - b.2.1) +
    (a.2.2 - b.2.2) * (a.2.2 - b.2.2)⟩

/-- Maximum value of a list of norms (`np.max`); `⟨0⟩` on the empty list,
where the source would fault. -/
def maxD : List NNR → NNR
  | [] => ⟨0⟩
  | [v] => v
  | v :: w :: rest => if v.sq < (maxD (w :: rest)).sq then maxD (w :: rest) else v

/-- Index of the maximum value of a list of norms, with numpy's documented
`np.argmax` tie rule: the first occurrence of the maximum is returned. -/
def argmax : List NNR → Nat
  | [] => 0
  | [_] => 0
  | v :: w :: rest => if v.sq < (maxD (w :: rest)).sq then argmax (w :: rest) + 1 else 0

/-- Source `update_distances` (glasbey.py lines 132-134): lower every entry
of `distances` to the minimum of its current value and the distance from the
corresponding candidate to `color`
(`np.minimum(distances, np.linalg.norm(colors - color), distances)`). -/
def update_distances (colors : List Color) (color : Color) (distances : List NNR) :
    List NNR :=
  List.zipWith (fun dv c => min dv (dist c color)) distances colors

/-- Initial distance field of `generate_palette` (lines 127-142): all
entries start at the sentinel `1000` (`np.ones((n,1)) * 1000`), then
`update_distances` is folded over every palette color except the last
(`for i in range(len(self.palette) - 1)`). -/
def init_distances (colors palette : List Color) : List NNR :=
  palette.dropLast.foldl (fun ds c => update_distances colors c ds)
    (List.replicate colors.length (NNR.ofRat 1000))

/-- One iteration of the greedy loop (lines 144-146): update the distance
field against the most recently appended palette color (`self.palette[-1]`),
then append `self.colors[np.argmax(distances)]`. -/
def greedyStep (colors : List Color) : List Color × List NNR → List Color × List NNR
  | (palette, distances) =>
    let d' := update_distances colors (palette.getLastD colDflt) distances
    (palette ++ [colors.getD (argmax d') colDflt], d')

/-- The greedy loop `while len(self.palette) < size`, run for a given number
of iterations (each iteration appends exactly one color, so the loop runs
`size - len(palette)` times). -/
def greedyLoop (colors : List Color) : Nat → List Color × List NNR → List Color × List NNR
  | 0, st => st
  | n + 1, st => greedyLoop colors n (greedyStep colors st)

/-- Floor of a rational (`Int.fdiv` of numerator by denominator, which is
exact because the denominator is positive). -/
def qfloor (q : ℚ) : ℤ := Int.fdiv q.num q.den

/-- Python's `round()` (also the rounding of `"{:.6f}"` at the last kept
digit): round half to even, on an exact rational. -/
def pyround (q : ℚ) : ℤ :=
  if q - qfloor q < 1 / 2 then qfloor q
  else if 1 / 2 < q - qfloor q then qfloor q + 1
  else if qfloor q % 2 = 0 then qfloor q else qfloor q + 1

/-- Numeric content of one line written by `save_palette` in "byte" format
(line 221-222): `tuple(int(round(k * 255)) for k in color)`. -/
def byteLine (c : Color) : ℤ × ℤ × ℤ :=
  (pyround (c.1 * 255), pyround (c.2.1 * 255), pyround (c.2.2 * 255))

/-- Numeric content of the file written by `save_palette(format="byte")`:
one `byteLine` per palette color. -/
def save_palette_byte (palette : List Color) : List (ℤ × ℤ × ℤ) :=
  palette.map byteLine

/-- Value written by `"{:.6f}".format(k)`: `k` rounded to six decimal
places. -/
def fmt6 (q : ℚ) : ℚ := (pyround (q * 1000000) : ℚ) / 1000000

/-- Numeric content of one line written by `save_palette` in "float" format
(lines 224-225): the three components are passed through `abs` before
formatting (`*(abs(k) for k in color)`). -/
def floatLine (c : Color) : ℚ × ℚ × ℚ :=
  (fmt6 (abs c.1), fmt6 (abs c.2.1), fmt6 (abs c.2.2))

/-- Numeric content of the file written by `save_palette(format="float")`. -/
def save_palette_float (palette : List Color) : List (ℚ × ℚ × ℚ) :=
  palette.map floatLine

/-- State of a `Glasbey` builder: candidate pool `colors` (the possibly
filtered color table), current palette (in perceptual coordinates), and the
`overwrite_base_palette` flag. -/
structure Builder where
  colors : List Color
  palette : List Color
  overwrite_base_palette : Bool
deriving DecidableEq

/-- Result of one `generate_palette` call: the updated builder, the
returned palette (converted by `cspace_convert(..., "CAM02-UCS", "sRGB1")`,
modelled by the function `conv`), and the numeric content written to the
base-palette file (`none` when nothing is written). -/
structure GenResult where
  builder : Builder
  output : List Color
  written : Option (List (ℤ × ℤ × ℤ))
deriving DecidableEq

/-- Source `Glasbey.generate_palette` (lines 118-155). `conv` is the
external CAM02-UCS → sRGB1 conversion.  If `size <= len(self.palette)` the
palette is returned immediately (line 124-125).  Otherwise the distance
field is initialized and folded over all palette colors but the last, the
greedy loop runs until the palette has `size` entries, the file is
rewritten in byte format when `overwrite_base_palette` is set (lines
152-153, note the source passes the unconverted internal palette), and the
first `size` palette entries are returned converted. -/
def generate_palette (conv : Color → Color) (b : Builder) (size : Nat) : GenResult :=
  if size ≤ b.palette.length then
    ⟨b, (b.palette.take size).map conv, none⟩
  else
    let pal := (greedyLoop b.colors (size - b.palette.length)
        (b.palette, init_distances b.colors b.palette)).1
    ⟨⟨b.colors, pal, b.overwrite_base_palette⟩,
      (pal.take size).map conv,
      if b.overwrite_base_palette then some (save_palette_byte pal) else none⟩

/-- Python chained comparison `0 <= v <= 255`. -/
def inRange255 (v : ℤ) : Bool := decide (0 ≤ v) && decide (v ≤ 255)

/-- Source `Glasbey.check_validity_rbg_palette` (lines 237-247), preserving
Python's operator precedence: the condition
`not 0 <= color[0] <= 255 and 0 <= color[1] <= 255 and 0 <= color[2] <= 255`
parses as `(not (0 <= color[0] <= 255)) and (0 <= color[1] <= 255) and
(0 <= color[2] <= 255)`, and the palette is rejected when that holds for
some color. -/
def check_validity_rbg_palette (palette : List (ℤ × ℤ × ℤ)) : Bool :=
  palette.all fun c => !(!inRange255 c.1 && inRange255 c.2.1 && inRange255 c.2.2)

/-- The `__init__` validation gate for a list base palette (lines 68-70):
the constructor proceeds (to loading the color table) exactly when both
asserts pass. -/
def init_list_accepted (base : List (ℤ × ℤ × ℤ)) (overwrite : Bool) : Bool :=
  check_validity_rbg_palette base && !overwrite

/-- Number of rows of the full color table, `self.MAX ** 3 = 256 ** 3`. -/
def NUM_COLORS : Nat := 256 * 256 * 256

/-- The shape assertion of `load_or_generate_color_table` (line 162):
`colors.shape == (self.NUM_COLORS, 3)`. -/
def tableShapeOk (t : List (List ℚ)) : Bool :=
  decide (t.length = NUM_COLORS) && t.all fun row => decide (row.length = 3)

/-- Source `Glasbey.load_or_generate_color_table` (lines 157-166).
`loaded` is the result of the attempted `np.load(self.LUT)["lut"]` (`none`
when the file is missing or unreadable); `built` is the table
`generate_color_table` would produce.  Returns the chosen table and whether
the cache file was (re)written.  The bare `except:` of the source catches
every load failure, including the shape assertion. -/
def load_or_generate_color_table (loaded : Option (List (List ℚ)))
    (built : List (List ℚ)) : List (List ℚ) × Bool :=
  match loaded with
  | some t => if tableShapeOk t then (t, false) else (built, true)
  | none => (built, true)

/-- Lightness coordinate of a JCh triple (`jch[:, 0]`). -/
def lightOf (toJCh : Color → Color) (c : Color) : ℚ := (toJCh c).1

/-- Chroma coordinate of a JCh triple (`jch[:, 1]`). -/
def chromaOf (toJCh : Color → Color) (c : Color) : ℚ := (toJCh c).2.1

/-- Hue coordinate of a JCh triple (`jch[:, 2]`). -/
def hueOf (toJCh : Color → Color) (c : Color) : ℚ := (toJCh c).2.2

/-- Lightness-range filter of `__init__` (lines 92-96); `toJCh` is the
external CAM02-UCS → JCh conversion. -/
def filter_lightness (toJCh : Color → Color) : Option (ℚ × ℚ) → List Color → List Color
  | none, colors => colors
  | some (lo, hi), colors =>
      colors.filter fun c => decide (lo ≤ lightOf toJCh c) && decide (lightOf toJCh c ≤ hi)

/-- Chroma-range filter of `__init__` (lines 97-101). -/
def filter_chroma (toJCh : Color → Color) : Option (ℚ × ℚ) → List Color → List Color
  | none, colors => colors
  | some (lo, hi), colors =>
      colors.filter fun c => decide (lo ≤ chromaOf toJCh c) && decide (chromaOf toJCh c ≤ hi)

/-- Hue-range filter of `__init__` (lines 102-111): when
`hue_range[0] > hue_range[1]` the kept hues satisfy
`jch >= hue_min or jch <= hue_max`, otherwise `jch >= hue_min and
jch <= hue_max`. -/
def filter_hue (toJCh : Color → Color) : Option (ℚ × ℚ) → List Color → List Color
  | none, colors => colors
  | some (lo, hi), colors =>
      if hi < lo then
        colors.filter fun c => decide (lo ≤ hueOf toJCh c) || decide (hueOf toJCh c ≤ hi)
      else
        colors.filter fun c => decide (lo ≤ hueOf toJCh c) && decide (hueOf toJCh c ≤ hi)

/-- Threshold of the near-black exclusion (line 114). -/
def MIN_DISTANCE_TO_BLACK : ℚ := 35

/-- Near-black exclusion of `__init__` (lines 112-116): keep the colors of
the current (already filtered) pool whose distance to the FIRST ROW OF THE
CURRENT POOL (`self.colors[0, :]`) is strictly greater than 35.  On an
empty pool the source would fault indexing `self.colors[0]`. -/
def filter_no_black : Bool → List Color → List Color
  | false, colors => colors
  | true, [] => []
  | true, c0 :: rest =>
      (c0 :: rest).filter fun c => decide (NNR.ofRat MIN_DISTANCE_TO_BLACK < dist c c0)

/-- The full candidate-pool pipeline of `__init__` (lines 92-116), in
source order: lightness range, chroma range, hue range, near-black
exclusion. -/
def apply_filters (toJCh : Color → Color) (lr cr hr : Option (ℚ × ℚ)) (noBlack : Bool)
    (table : List Color) : List Color :=
  filter_no_black noBlack (filter_hue toJCh hr (filter_chroma toJCh cr
    (filter_lightness toJCh lr table)))

/-- Modelled from the spec's words, for comparison with the code: the
candidate pool claim C5 describes — after the three range filters, keep
exactly the colors whose distance from the color-table entry for RGB
index 0 (pure black) exceeds 35. -/
def no_black_pool_claimed (toJCh : Color → Color) (lr cr hr : Option (ℚ × ℚ))
    (table : List Color) : List Color :=
  (filter_hue toJCh hr (filter_chroma toJCh cr (filter_lightness toJCh lr table))).filter
    fun c => decide (NNR.ofRat MIN_DISTANCE_TO_BLACK < dist c (table.getD 0 colDflt))

end Glasbey

namespace Glasbey

theorem NNR.le_def (a b : NNR) : a ≤ b ↔ a.sq ≤ b.sq := Iff.rfl

theorem NNR.lt_def (a b : NNR) : a < b ↔ a.sq < b.sq := Iff.rfl

theorem NNR.trans_le {a b c : NNR} (h1 : a ≤ b) (h2 : b ≤ c) : a ≤ c :=
  (NNR.le_def a c).mpr (le_trans ((NNR.le_def a b).mp h1) ((NNR.le_def b c).mp h2))

theorem NNR.refl_le (a : NNR) : a ≤ a := (NNR.le_def a a).mpr (le_refl a.sq)

theorem NNR.min_le_left (a b : NNR) : min a b ≤ a := by
  show (if a.sq ≤ b.sq then a else b).sq ≤ a.sq
  split
  · exact le_refl _
  · exact le_of_not_le (by assumption)

theorem NNR.min_le_right (a b : NNR) : min a b ≤ b := by
  show (if a.sq ≤ b.sq then a else b).sq ≤ b.sq
  split
  · assumption
  · exact le_refl _

theorem NNR.min_eq_or (a b : NNR) : min a b = a ∨ min a b = b := by
  show (if a.sq ≤ b.sq then a else b) = a ∨ (if a.sq ≤ b.sq then a else b) = b
  split
  · exact Or.inl rfl
  · exact Or.inr rfl

theorem maxD_le_cons (v w : NNR) (rest : List NNR) :
    (maxD (w :: rest)).sq ≤ (maxD (v :: w :: rest)).sq := by
  simp only [maxD]
  split
  · exact le_refl _
  · exact le_of_not_lt (by assumption)

theorem le_maxD (d : NNR) : ∀ (l : List NNR), ∀ k, k < l.length →
    (l.getD k d).sq ≤ (maxD l).sq
  | [], k, hk => absurd hk (by simp)
  | [v], k, hk => by
      have hk0 : k = 0 := Nat.lt_one_iff.mp (by simpa using hk)
      subst hk0
      simp [maxD]
  | v :: w :: rest, k, hk => by
      cases k with
      | zero =>
        simp only [List.getD_cons_zero, maxD]
        split
        · exact le_of_lt (by assumption)
        · exact le_refl _
      | succ k =>
        calc ((v :: w :: rest).getD (k + 1) d).sq
            = ((w :: rest).getD k d).sq := by simp [List.getD_cons_succ]
          _ ≤ (maxD (w :: rest)).sq := le_maxD d (w :: rest) k (by simpa using hk)
          _ ≤ (maxD (v :: w :: rest)).sq := maxD_le_cons v w rest

theorem argmax_lt_length : ∀ (l : List NNR), l ≠ [] → argmax l < l.length
  | [], h => absurd rfl h
  | [_], _ => by simp [argmax]
  | v :: w :: rest, _ => by
      by_cases h : v.sq < (maxD (w :: rest)).sq
      · simp only [argmax, if_pos h, List.length_cons]
        exact Nat.succ_lt_succ (argmax_lt_length (w :: rest) (by simp))
      · simp [argmax, if_neg h]

theorem getD_argmax (d : NNR) : ∀ (l : List NNR), l ≠ [] →
    l.getD (argmax l) d = maxD l
  | [], h => absurd rfl h
  | [_], _ => by simp [argmax, maxD]
  | v :: w :: rest, _ => by
      by_cases h : v.sq < (maxD (w :: rest)).sq
      · simp only [argmax, maxD, if_pos h, List.getD_cons_succ]
        exact getD_argmax d (w :: rest) (by simp)
      · simp [argmax, maxD, if_neg h]

theorem getD_lt_of_lt_argmax (d : NNR) : ∀ (l : List NNR), ∀ k, k < argmax l →
    (l.getD k d).sq < (maxD l).sq
  | [], k, hk => absurd hk (by simp [argmax])
  | [_], k, hk => absurd hk (by simp [argmax])
  | v :: w :: rest, k, hk => by
      by_cases h : v.sq < (maxD (w :: rest)).sq
      · simp only [argmax, if_pos h] at hk
        cases k with
        | zero =>
          simp only [List.getD_cons_zero, maxD, if_pos h]
          exact h
        | succ k =>
          have := getD_lt_of_lt_argmax d (w :: rest) k (Nat.lt_of_succ_lt_succ hk)
          simp only [List.getD_cons_succ, maxD, if_pos h]
          exact this
      · simp only [argmax, if_neg h] at hk
        exact absurd hk (Nat.not_lt_zero k)

end Glasbey

namespace Glasbey

theorem length_update_distances (colors : List Color) (c : Color) (ds : List NNR) :
    (update_distances colors c ds).length = min ds.length colors.length :=
  List.length_zipWith ..

theorem getD_update_distances (c : Color) :
    ∀ (ds : List NNR) (colors : List Color) (k : Nat), k < ds.length → k < colors.length →
      (update_distances colors c ds).getD k dDflt
        = min (ds.getD k dDflt) (dist (colors.getD k colDflt) c)
  | [], _, k, h1, _ => absurd h1 (by simp)
  | _ :: _, [], k, _, h2 => absurd h2 (by simp)
  | d0 :: ds, c0 :: cs, 0, _, _ => by simp [update_distances]
  | d0 :: ds, c0 :: cs, k + 1, h1, h2 => by
      simp only [update_distances, List.zipWith_cons_cons, List.getD_cons_succ]
      exact getD_update_distances c ds cs k (by simpa using h1) (by simpa using h2)

theorem fold_update_length (colors : List Color) :
    ∀ (cs : List Color) (ds : List NNR), ds.length = colors.length →
      (cs.foldl (fun a c => update_distances colors c a) ds).length = colors.length
  | [], _, h => h
  | c :: cs, ds, h => by
      simp only [List.foldl_cons]
      exact fold_update_length colors cs (update_distances colors c ds)
        (by rw [length_update_distances, h, Nat.min_self])

theorem fold_update_getD_le_init (colors : List Color) :
    ∀ (cs : List Color) (ds : List NNR), ds.length = colors.length →
      ∀ k, k < colors.length →
      (cs.foldl (fun a c => update_distances colors c a) ds).getD k dDflt
        ≤ ds.getD k dDflt
  | [], _, _, _, _ => NNR.refl_le _
  | c :: cs, ds, h, k, hk => by
      simp only [List.foldl_cons]
      have hupd : (update_distances colors c ds).length = colors.length := by
        rw [length_update_distances, h, Nat.min_self]
      have ih := fold_update_getD_le_init colors cs (update_distances colors c ds) hupd k hk
      have hstep : (update_distances colors c ds).getD k dDflt ≤ ds.getD k dDflt := by
        rw [getD_update_distances c ds colors k (h ▸ hk) hk]
        exact NNR.min_le_left ..
      exact NNR.trans_le ih hstep

theorem fold_update_getD_le_mem (colors : List Color) :
    ∀ (cs : List Color) (ds : List NNR), ds.length = colors.length →
      ∀ k, k < colors.length → ∀ c ∈ cs,
      (cs.foldl (fun a c => update_distances colors c a) ds).getD k dDflt
        ≤ dist (colors.getD k colDflt) c
  | [], _, _, _, _, c, hc => absurd hc (by simp)
  | c0 :: cs, ds, h, k, hk, c, hc => by
      have hupd : (update_distances colors c0 ds).length = colors.length := by
        rw [length_update_distances, h, Nat.min_self]
      rcases List.mem_cons.mp hc with hc0 | hcs
      · subst hc0
        simp only [List.foldl_cons]
        have hfold := fold_update_getD_le_init colors cs (update_distances colors c ds) hupd k hk
        have hstep : (update_distances colors c ds).getD k dDflt
            ≤ dist (colors.getD k colDflt) c := by
          rw [getD_update_distances c ds colors k (h ▸ hk) hk]
          exact NNR.min_le_right ..
        exact NNR.trans_le hfold hstep
      · simp only [List.foldl_cons]
        exact fold_update_getD_le_mem colors cs (update_distances colors c0 ds) hupd k hk c hcs

theorem fold_update_getD_attained (colors : List Color) :
    ∀ (cs : List Color) (ds : List NNR), ds.length = colors.length →
      ∀ k, k < colors.length →
      (cs.foldl (fun a c => update_distances colors c a) ds).getD k dDflt = ds.getD k dDflt
      ∨ ∃ c ∈ cs,
          (cs.foldl (fun a c => update_distances colors c a) ds).getD k dDflt
            = dist (colors.getD k colDflt) c
  | [], _, _, _, _ => Or.inl rfl
  | c0 :: cs, ds, h, k, hk => by
      have hupd : (update_distances colors c0 ds).length = colors.length := by
        rw [length_update_distances, h, Nat.min_self]
      simp only [List.foldl_cons]
      rcases fold_update_getD_attained colors cs (update_distances colors c0 ds) hupd k hk with
        heq | ⟨c, hc, heq⟩
      · rw [heq, getD_update_distances c0 ds colors k (h ▸ hk) hk]
        rcases NNR.min_eq_or (ds.getD k dDflt) (dist (colors.getD k colDflt) c0) with h1 | h1
        · exact Or.inl h1
        · exact Or.inr ⟨c0, List.mem_cons_self .., h1⟩
      · exact Or.inr ⟨c, List.mem_cons_of_mem c0 hc, heq⟩

theorem greedyStep_fst (colors p : List Color) (d : List NNR) :
    (greedyStep colors (p, d)).1
      = p ++ [colors.getD (argmax (update_distances colors (p.getLastD colDflt) d)) colDflt] :=
  rfl

theorem greedyStep_snd (colors p : List Color) (d : List NNR) :
    (greedyStep colors (p, d)).2 = update_distances colors (p.getLastD colDflt) d :=
  rfl

theorem greedyLoop_extends (colors : List Color) :
    ∀ (n : Nat) (st : List Color × List NNR), ∃ r, (greedyLoop colors n st).1 = st.1 ++ r
  | 0, st => ⟨[], by simp [greedyLoop]⟩
  | n + 1, st => by
      obtain ⟨p, d⟩ := st
      obtain ⟨r, hr⟩ := greedyLoop_extends colors n (greedyStep colors (p, d))
      refine ⟨[colors.getD
          (argmax (update_distances colors (p.getLastD colDflt) d)) colDflt] ++ r, ?_⟩
      rw [show greedyLoop colors (n + 1) (p, d)
            = greedyLoop colors n (greedyStep colors (p, d)) from rfl, hr, greedyStep_fst]
      simp [List.append_assoc]

theorem greedyLoop_len (colors : List Color) :
    ∀ (n : Nat) (st : List Color × List NNR),
      (greedyLoop colors n st).1.length = st.1.length + n
  | 0, st => by simp [greedyLoop]
  | n + 1, st => by
      obtain ⟨p, d⟩ := st
      have ih := greedyLoop_len colors n (greedyStep colors (p, d))
      rw [show greedyLoop colors (n + 1) (p, d)
            = greedyLoop colors n (greedyStep colors (p, d)) from rfl, ih, greedyStep_fst]
      simp only [List.length_append, List.length_cons, List.length_nil]
      omega

end Glasbey

namespace Glasbey

theorem getD_replicate {α : Type} (n k : Nat) (a d : α) (h : k < n) :
    (List.replicate n a).getD k d = a := by
  simp [List.getD, List.getElem?_replicate, h]

theorem generate_palette_if_le (conv : Color → Color) (b : Builder) (size : Nat)
    (h : size ≤ b.palette.length) :
    generate_palette conv b size = ⟨b, (b.palette.take size).map conv, none⟩ := by
  simp only [generate_palette, if_pos h]

theorem generate_palette_extends (conv : Color → Color) (b : Builder) (size : Nat) :
    ∃ r, (generate_palette conv b size).builder.palette = b.palette ++ r := by
  unfold generate_palette
  split
  · exact ⟨[], by simp⟩
  · obtain ⟨r, hr⟩ := greedyLoop_extends b.colors (size - b.palette.length)
      (b.palette, init_distances b.colors b.palette)
    exact ⟨r, by simpa using hr⟩

theorem generate_palette_len (conv : Color → Color) (b : Builder) (size : Nat) :
    (generate_palette conv b size).builder.palette.length = max b.palette.length size := by
  unfold generate_palette
  split
  · rename_i h
    simp [Nat.max_eq_left h]
  · rename_i h
    dsimp only
    rw [greedyLoop_len]
    dsimp only
    omega

theorem generate_palette_output (conv : Color → Color) (b : Builder) (size : Nat) :
    (generate_palette conv b size).output
      = ((generate_palette conv b size).builder.palette.take size).map conv := by
  unfold generate_palette
  split <;> rfl

/-- Claim C1: each iteration of the greedy loop first lowers every
candidate's distance entry to the minimum of its current value and the
Euclidean distance to the most recently appended palette color, and then
appends the candidate whose distance entry is maximal, breaking ties by the
lowest candidate index in enumeration order (every earlier candidate has a
strictly smaller entry). -/
theorem greedy_step_selects_argmax (colors palette : List Color) (distances : List NNR)
    (hlen : distances.length = colors.length) (hc : colors ≠ []) :
    ((greedyStep colors (palette, distances)).2
        = update_distances colors (palette.getLastD colDflt) distances)
  ∧ (∀ k, k < colors.length →
      (greedyStep colors (palette, distances)).2.getD k dDflt
        = min (distances.getD k dDflt)
            (dist (colors.getD k colDflt) (palette.getLastD colDflt)))
  ∧ ((greedyStep colors (palette, distances)).1
      = palette
        ++ [colors.getD (argmax ((greedyStep colors (palette, distances)).2)) colDflt])
  ∧ argmax ((greedyStep colors (palette, distances)).2) < colors.length
  ∧ (∀ k, k < colors.length →
      (greedyStep colors (palette, distances)).2.getD k dDflt
        ≤ (greedyStep colors (palette, distances)).2.getD
            (argmax ((greedyStep colors (palette, distances)).2)) dDflt)
  ∧ (∀ k, k < argmax ((greedyStep colors (palette, distances)).2) →
      (greedyStep colors (palette, distances)).2.getD k dDflt
        < (greedyStep colors (palette, distances)).2.getD
            (argmax ((greedyStep colors (palette, distances)).2)) dDflt) := by
  have hdlen : (update_distances colors (palette.getLastD colDflt) distances).length
      = colors.length := by
    rw [length_update_distances, hlen, Nat.min_self]
  have hdne : update_distances colors (palette.getLastD colDflt) distances ≠ [] := by
    intro he
    rw [he] at hdlen
    exact hc (List.eq_nil_of_length_eq_zero hdlen.symm)
  refine ⟨greedyStep_snd .., ?_, ?_, ?_, ?_, ?_⟩
  · intro k hk
    rw [greedyStep_snd, getD_update_distances _ _ _ _ (hlen ▸ hk) hk]
  · rw [greedyStep_snd]
    exact greedyStep_fst ..
  · rw [greedyStep_snd]
    exact hdlen ▸ argmax_lt_length _ hdne
  · intro k hk
    rw [greedyStep_snd]
    show _ ≤ ((update_distances colors (palette.getLastD colDflt) distances).getD
      (argmax (update_distances colors (palette.getLastD colDflt) distances)) dDflt).sq
    rw [getD_argmax _ _ hdne]
    exact le_maxD dDflt _ k (hdlen.symm ▸ hk)
  · intro k hk
    rw [greedyStep_snd] at hk ⊢
    show _ < ((update_distances colors (palette.getLastD colDflt) distances).getD
      (argmax (update_distances colors (palette.getLastD colDflt) distances)) dDflt).sq
    rw [getD_argmax _ _ hdne]
    exact getD_lt_of_lt_argmax dDflt _ k hk

/-- Claim C8: the distance array is initialized with every entry set to the
sentinel value 1000 and folded over all palette colors except the last
before the loop (so each entry is the minimum of 1000 and the distances to
those colors, as witnessed by the bound and attainment conjuncts), and each
candidate's entry is non-increasing across an append step of the greedy
loop. -/
theorem distance_field_init_monotone (colors palette : List Color)
    (distances : List NNR) (k : Nat) (hk : k < colors.length)
    (hlen : distances.length = colors.length) :
    (init_distances colors palette).length = colors.length
  ∧ (init_distances colors palette).getD k dDflt ≤ NNR.ofRat 1000
  ∧ (∀ c ∈ palette.dropLast,
      (init_distances colors palette).getD k dDflt ≤ dist (colors.getD k colDflt) c)
  ∧ ((init_distances colors palette).getD k dDflt = NNR.ofRat 1000
      ∨ ∃ c ∈ palette.dropLast,
          (init_distances colors palette).getD k dDflt = dist (colors.getD k colDflt) c)
  ∧ (greedyStep colors (palette, distances)).2.getD k dDflt ≤ distances.getD k dDflt := by
  have hrep : (List.replicate colors.length (NNR.ofRat 1000) : List NNR).length
      = colors.length := List.length_replicate ..
  have hrepD : (List.replicate colors.length (NNR.ofRat 1000) : List NNR).getD k dDflt
      = NNR.ofRat 1000 := getD_replicate _ _ _ _ hk
  refine ⟨?_, ?_, ?_, ?_, ?_⟩
  · exact fold_update_length colors palette.dropLast _ hrep
  · have := fold_update_getD_le_init colors palette.dropLast _ hrep k hk
    rw [hrepD] at this
    exact this
  · intro c hc
    exact fold_update_getD_le_mem colors palette.dropLast _ hrep k hk c hc
  · have := fold_update_getD_attained colors palette.dropLast _ hrep k hk
    rw [hrepD] at this
    exact this
  · rw [greedyStep_snd, getD_update_distances _ _ _ _ (hlen ▸ hk) hk]
    exact NNR.min_le_left ..

/-- Claim C2: for every builder state and sizes 1 ≤ N < M, generating a
palette of size N and then of size M on the same builder yields a second
output whose first N entries equal the first output exactly, and across
both calls the internal palette is only ever extended (never shortened or
reordered). -/
theorem generate_palette_extension_stable (conv : Color → Color) (b : Builder)
    (N M : Nat) (hN : 1 ≤ N) (hNM : N < M) :
    ((generate_palette conv (generate_palette conv b N).builder M).output.take N
        = (generate_palette conv b N).output)
  ∧ (∃ r, (generate_palette conv b N).builder.palette = b.palette ++ r)
  ∧ (∃ r, (generate_palette conv (generate_palette conv b N).builder M).builder.palette
        = (generate_palette conv b N).builder.palette ++ r) := by
  have h1 : N ≤ (generate_palette conv b N).builder.palette.length := by
    rw [generate_palette_len]
    exact Nat.le_max_right _ _
  obtain ⟨r2, hr2⟩ := generate_palette_extends conv (generate_palette conv b N).builder M
  refine ⟨?_, generate_palette_extends conv b N, ⟨r2, hr2⟩⟩
  rw [generate_palette_output conv (generate_palette conv b N).builder M, hr2,
    generate_palette_output conv b N]
  rw [List.map_take, List.take_take, Nat.min_eq_left (le_of_lt hNM), ← List.map_take,
    List.take_append_of_le_length h1]

/-- Claim C7: for a target size at most the current palette length,
generate_palette performs no selection work — the builder is unchanged, no
file is written, and the returned palette is the converted size-long
prefix; moreover for any size a repeated call with the same size returns
the identical output and leaves the builder unchanged. -/
theorem generate_palette_noop_idempotent (conv : Color → Color) (b : Builder)
    (size : Nat) :
    (size ≤ b.palette.length →
        generate_palette conv b size = ⟨b, (b.palette.take size).map conv, none⟩)
  ∧ (generate_palette conv (generate_palette conv b size).builder size).output
      = (generate_palette conv b size).output
  ∧ (generate_palette conv (generate_palette conv b size).builder size).builder
      = (generate_palette conv b size).builder := by
  have h2 : size ≤ (generate_palette conv b size).builder.palette.length := by
    rw [generate_palette_len]
    exact Nat.le_max_right _ _
  have hsecond := generate_palette_if_le conv (generate_palette conv b size).builder size h2
  refine ⟨fun h => generate_palette_if_le conv b size h, ?_, ?_⟩
  · rw [hsecond, generate_palette_output conv b size]
  · rw [hsecond]

end Glasbey

namespace Glasbey

theorem qfloor_intCast (n : ℤ) : qfloor ((n : ℤ) : ℚ) = n := by
  unfold qfloor
  rw [Rat.num_intCast, Rat.den_intCast]
  simp [Int.fdiv_one]

theorem pyround_intCast (n : ℤ) : pyround ((n : ℤ) : ℚ) = n := by
  unfold pyround
  rw [qfloor_intCast]
  simp

theorem qfloor_nonneg (q : ℚ) (h : 0 ≤ q) : 0 ≤ qfloor q := by
  unfold qfloor
  apply Int.fdiv_nonneg
  · exact Rat.num_nonneg.mpr h
  · exact Int.natCast_nonneg q.den

theorem pyround_nonneg (q : ℚ) (h : 0 ≤ q) : 0 ≤ pyround q := by
  have h0 := qfloor_nonneg q h
  unfold pyround
  split
  · exact h0
  · split
    · omega
    · split
      · exact h0
      · omega

theorem fmt6_nonneg (q : ℚ) (h : 0 ≤ q) : 0 ≤ fmt6 q := by
  unfold fmt6
  apply div_nonneg
  · exact_mod_cast pyround_nonneg _ (mul_nonneg h (by norm_num))
  · norm_num

theorem getD_map {α β : Type} (f : α → β) : ∀ (l : List α) (i : Nat), i < l.length →
    ∀ (d : β) (d₀ : α), (l.map f).getD i d = f (l.getD i d₀)
  | [], i, hi, _, _ => absurd hi (by simp)
  | a :: l, 0, _, _, _ => rfl
  | a :: l, i + 1, hi, d, d₀ => by
      simp only [List.map_cons, List.getD_cons_succ]
      exact getD_map f l i (by simpa using hi) d d₀

/-- Claim C3 (code bug): because of Python's operator precedence in
`check_validity_rbg_palette`, a base palette whose second or third RGB
component is out of range (256 or -1) is ACCEPTED by the validity check —
`__init__` then proceeds to load the color table — while an out-of-range
first component (with the other two in range) is rejected.  So no
validation error is raised for `[(0, 256, 0)]`, contradicting the claim. -/
theorem check_validity_accepts_out_of_range :
    check_validity_rbg_palette [(0, 256, 0)] = true
  ∧ check_validity_rbg_palette [(10, -1, 10)] = true
  ∧ init_list_accepted [(0, 256, 0)] false = true
  ∧ check_validity_rbg_palette [(256, 0, 0)] = false := by
  decide

/-- Claim C9: the color-table cache is trusted only when its shape is
exactly `(256³, 3)`; on a missing or mismatched table the function returns
the freshly built table and writes it back, and it is total (no exception
escapes). -/
theorem color_table_load_validates_recovers (loaded : Option (List (List ℚ)))
    (built : List (List ℚ)) :
    (∀ t, loaded = some t → tableShapeOk t = true →
        load_or_generate_color_table loaded built = (t, false))
  ∧ (∀ t, loaded = some t → tableShapeOk t = false →
        load_or_generate_color_table loaded built = (built, true))
  ∧ (loaded = none → load_or_generate_color_table loaded built = (built, true))
  ∧ (∀ t, tableShapeOk t = true ↔
        (t.length = NUM_COLORS ∧ ∀ row ∈ t, row.length = 3)) := by
  refine ⟨?_, ?_, ?_, ?_⟩
  · intro t ht hok
    subst ht
    simp [load_or_generate_color_table, hok]
  · intro t ht hok
    subst ht
    simp [load_or_generate_color_table, hok]
  · intro h
    subst h
    rfl
  · intro t
    simp [tableShapeOk, List.all_eq_true]

theorem color_table_load_validates_recovers_witness :
    load_or_generate_color_table (some [[(1 : ℚ), 2, 3]]) [] = ([], true)
  ∧ load_or_generate_color_table none [] = ([], true) :=
  ⟨(color_table_load_validates_recovers (some [[(1 : ℚ), 2, 3]]) []).2.1
      [[(1 : ℚ), 2, 3]] rfl (by decide),
   (color_table_load_validates_recovers none []).2.2.1 rfl⟩

/-- Claim C6: hue-range filtering with hue_min > hue_max accepts exactly
the union of hues in [hue_min, 360) and [0, hue_max] (for hues in the
collaborator's range [0, 360)); with hue_min ≤ hue_max it accepts exactly
[hue_min, hue_max]; and concretely with hue_min = 315, hue_max = 45,
candidates at hue 350 and hue 10 are kept while hue 180 is removed. -/
theorem hue_filter_wraparound (toJCh : Color → Color) (lo hi : ℚ)
    (colors : List Color) (c : Color) (hmem : c ∈ colors)
    (h0 : 0 ≤ hueOf toJCh c) (h360 : hueOf toJCh c < 360) :
    (hi < lo →
      (c ∈ filter_hue toJCh (some (lo, hi)) colors ↔
        ((lo ≤ hueOf toJCh c ∧ hueOf toJCh c < 360)
          ∨ (0 ≤ hueOf toJCh c ∧ hueOf toJCh c ≤ hi))))
  ∧ (lo ≤ hi →
      (c ∈ filter_hue toJCh (some (lo, hi)) colors ↔
        (lo ≤ hueOf toJCh c ∧ hueOf toJCh c ≤ hi)))
  ∧ filter_hue (fun x => x) (some (315, 45))
      [((1 : ℚ), 1, 350), ((2 : ℚ), 2, 10), ((3 : ℚ), 3, 180)]
      = [((1 : ℚ), 1, 350), ((2 : ℚ), 2, 10)] := by
  refine ⟨?_, ?_, by decide⟩
  · intro hwrap
    simp only [filter_hue, if_pos hwrap, List.mem_filter, hmem, true_and,
      Bool.or_eq_true, decide_eq_true_eq]
    constructor
    · rintro (h | h)
      · exact Or.inl ⟨h, h360⟩
      · exact Or.inr ⟨h0, h⟩
    · rintro (⟨h, _⟩ | ⟨_, h⟩)
      · exact Or.inl h
      · exact Or.inr h
  · intro hle
    simp only [filter_hue, if_neg (not_lt.mpr hle), List.mem_filter, hmem, true_and,
      Bool.and_eq_true, decide_eq_true_eq]

theorem hue_filter_wraparound_witness :
    ((45 : ℚ) < 315 →
      (((1 : ℚ), 1, 350) ∈ filter_hue (fun x => x) (some ((315 : ℚ), (45 : ℚ)))
          [((1 : ℚ), 1, 350), ((2 : ℚ), 2, 10), ((3 : ℚ), 3, 180)] ↔
        ((315 ≤ hueOf (fun x => x) ((1 : ℚ), 1, 350)
            ∧ hueOf (fun x => x) ((1 : ℚ), 1, 350) < 360)
          ∨ (0 ≤ hueOf (fun x => x) ((1 : ℚ), 1, 350)
            ∧ hueOf (fun x => x) ((1 : ℚ), 1, 350) ≤ 45))))
  ∧ ((315 : ℚ) ≤ 45 →
      (((1 : ℚ), 1, 350) ∈ filter_hue (fun x => x) (some ((315 : ℚ), (45 : ℚ)))
          [((1 : ℚ), 1, 350), ((2 : ℚ), 2, 10), ((3 : ℚ), 3, 180)] ↔
        (315 ≤ hueOf (fun x => x) ((1 : ℚ), 1, 350)
          ∧ hueOf (fun x => x) ((1 : ℚ), 1, 350) ≤ 45)))
  ∧ filter_hue (fun x => x) (some (315, 45))
      [((1 : ℚ), 1, 350), ((2 : ℚ), 2, 10), ((3 : ℚ), 3, 180)]
      = [((1 : ℚ), 1, 350), ((2 : ℚ), 2, 10)] :=
  hue_filter_wraparound (fun x => x) 315 45
    [((1 : ℚ), 1, 350), ((2 : ℚ), 2, 10), ((3 : ℚ), 3, 180)]
    ((1 : ℚ), 1, 350) (by decide) (by decide) (by decide)

end Glasbey

namespace Glasbey

/-- Claim C10: save_palette with format "float" writes each color as the
absolute values of its three components rounded to six decimal places, so
any negative component has its sign silently discarded (the written value
is nonnegative, hence differs from the component) and such palettes do not
round-trip through the float format. -/
theorem save_float_discards_sign (palette : List Color) (i : Nat)
    (hi : i < palette.length) :
    (save_palette_float palette).getD i (0, 0, 0) = floatLine (palette.getD i colDflt)
  ∧ ((save_palette_float palette).getD i (0, 0, 0)).1
      = fmt6 (abs (palette.getD i colDflt).1)
  ∧ ((palette.getD i colDflt).1 < 0 →
      0 ≤ ((save_palette_float palette).getD i (0, 0, 0)).1
      ∧ ((save_palette_float palette).getD i (0, 0, 0)).1 ≠ (palette.getD i colDflt).1)
  ∧ ((palette.getD i colDflt).2.1 < 0 →
      ((save_palette_float palette).getD i (0, 0, 0)).2.1 ≠ (palette.getD i colDflt).2.1)
  ∧ ((palette.getD i colDflt).2.2 < 0 →
      ((save_palette_float palette).getD i (0, 0, 0)).2.2 ≠ (palette.getD i colDflt).2.2) := by
  have hmap : (save_palette_float palette).getD i (0, 0, 0)
      = floatLine (palette.getD i colDflt) :=
    getD_map floatLine palette i hi _ _
  refine ⟨hmap, by rw [hmap]; rfl, ?_, ?_, ?_⟩
  · intro hneg
    rw [hmap]
    have hpos : 0 ≤ fmt6 (abs (palette.getD i colDflt).1) := fmt6_nonneg _ (abs_nonneg _)
    exact ⟨hpos, ne_of_gt (lt_of_lt_of_le hneg hpos)⟩
  · intro hneg
    rw [hmap]
    have hpos : 0 ≤ fmt6 (abs (palette.getD i colDflt).2.1) := fmt6_nonneg _ (abs_nonneg _)
    exact ne_of_gt (lt_of_lt_of_le hneg hpos)
  · intro hneg
    rw [hmap]
    have hpos : 0 ≤ fmt6 (abs (palette.getD i colDflt).2.2) := fmt6_nonneg _ (abs_nonneg _)
    exact ne_of_gt (lt_of_lt_of_le hneg hpos)

theorem save_float_discards_sign_witness :
    (save_palette_float [((-1 : ℚ), -2, -3)]).getD 0 (0, 0, 0)
        = floatLine ([((-1 : ℚ), -2, -3)].getD 0 colDflt)
  ∧ ((save_palette_float [((-1 : ℚ), -2, -3)]).getD 0 (0, 0, 0)).1
      = fmt6 (abs ([((-1 : ℚ), -2, -3)].getD 0 colDflt).1)
  ∧ (([((-1 : ℚ), -2, -3)].getD 0 colDflt).1 < 0 →
      0 ≤ ((save_palette_float [((-1 : ℚ), -2, -3)]).getD 0 (0, 0, 0)).1
      ∧ ((save_palette_float [((-1 : ℚ), -2, -3)]).getD 0 (0, 0, 0)).1
          ≠ ([((-1 : ℚ), -2, -3)].getD 0 colDflt).1)
  ∧ (([((-1 : ℚ), -2, -3)].getD 0 colDflt).2.1 < 0 →
      ((save_palette_float [((-1 : ℚ), -2, -3)]).getD 0 (0, 0, 0)).2.1
          ≠ ([((-1 : ℚ), -2, -3)].getD 0 colDflt).2.1)
  ∧ (([((-1 : ℚ), -2, -3)].getD 0 colDflt).2.2 < 0 →
      ((save_palette_float [((-1 : ℚ), -2, -3)]).getD 0 (0, 0, 0)).2.2
          ≠ ([((-1 : ℚ), -2, -3)].getD 0 colDflt).2.2) :=
  save_float_discards_sign [((-1 : ℚ), -2, -3)] 0 (by decide)

/-- Claim C4 (code bug): with overwrite_base_palette set, a growing
generate_palette call does rewrite the file with the full current palette
through the byte formatter, but the source passes the raw internal
CAM02-UCS palette to save_palette without converting it to display RGB: for
the white-like perceptual color (100, -2, -1) the written first line is
(25500, -510, -255), whose components are not display-RGB values in
[0, 255]. -/
theorem overwrite_writes_unconverted_palette :
    (generate_palette id ⟨[((7 : ℚ), 7, 7)], [((100 : ℚ), -2, -1)], true⟩ 2).written
      = some [(25500, -510, -255), (1785, 1785, 1785)]
  ∧ ¬ ((25500 : ℤ) ≤ 255) := by
  constructor
  · have h1 : (generate_palette id ⟨[((7 : ℚ), 7, 7)], [((100 : ℚ), -2, -1)], true⟩ 2).written
        = some (save_palette_byte [((100 : ℚ), -2, -1), ((7 : ℚ), 7, 7)]) := rfl
    rw [h1]
    unfold save_palette_byte byteLine
    simp only [List.map_cons, List.map_nil]
    rw [show ((100 : ℚ) * 255) = ((25500 : ℤ) : ℚ) from by norm_num,
      show ((-2 : ℚ) * 255) = ((-510 : ℤ) : ℚ) from by norm_num,
      show ((-1 : ℚ) * 255) = ((-255 : ℤ) : ℚ) from by norm_num,
      show ((7 : ℚ) * 255) = ((1785 : ℤ) : ℚ) from by norm_num,
      pyround_intCast, pyround_intCast, pyround_intCast, pyround_intCast]
  · decide

/-- Claim C5 (code bug): the no_black exclusion measures distances from the
first row of the ALREADY-FILTERED pool (`self.colors[0, :]`), not from the
color-table entry for RGB index 0 (pure black) as the claim (and the
source's own comment) state.  With a lightness filter that removes the
table's first entry, the code empties the pool (both survivors are within
35 of the filtered pool's head), while the pool described by the claim
keeps both survivors (both are farther than 35 from the table's entry 0). -/
theorem no_black_uses_filtered_head :
    apply_filters (fun x => x) (some (50, 100)) none none true
        [((10 : ℚ), 7, 7), ((60 : ℚ), 7, 7), ((60 : ℚ), 37, 7)] = []
  ∧ no_black_pool_claimed (fun x => x) (some (50, 100)) none none
        [((10 : ℚ), 7, 7), ((60 : ℚ), 7, 7), ((60 : ℚ), 37, 7)]
      = [((60 : ℚ), 7, 7), ((60 : ℚ), 37, 7)] := by
  have hpool : filter_hue (fun x => x) none (filter_chroma (fun x => x) none
      (filter_lightness (fun x => x) (some (50, 100))
        [((10 : ℚ), 7, 7), ((60 : ℚ), 7, 7), ((60 : ℚ), 37, 7)]))
      = [((60 : ℚ), 7, 7), ((60 : ℚ), 37, 7)] := rfl
  constructor
  · have hc1 : ¬ (NNR.ofRat MIN_DISTANCE_TO_BLACK < dist ((60 : ℚ), 7, 7) ((60 : ℚ), 7, 7)) := by
      show ¬ ((NNR.ofRat MIN_DISTANCE_TO_BLACK).sq < (dist ((60 : ℚ), 7, 7) ((60 : ℚ), 7, 7)).sq)
      norm_num [NNR.ofRat, dist, MIN_DISTANCE_TO_BLACK]
    have hc2 : ¬ (NNR.ofRat MIN_DISTANCE_TO_BLACK < dist ((60 : ℚ), 37, 7) ((60 : ℚ), 7, 7)) := by
      show ¬ ((NNR.ofRat MIN_DISTANCE_TO_BLACK).sq < (dist ((60 : ℚ), 37, 7) ((60 : ℚ), 7, 7)).sq)
      norm_num [NNR.ofRat, dist, MIN_DISTANCE_TO_BLACK]
    unfold apply_filters
    rw [hpool]
    simp only [filter_no_black, List.filter_cons, List.filter_nil]
    rw [if_neg (by simpa using hc1), if_neg (by simpa using hc2)]
  · have hc3 : NNR.ofRat MIN_DISTANCE_TO_BLACK < dist ((60 : ℚ), 7, 7) ((10 : ℚ), 7, 7) := by
      show (NNR.ofRat MIN_DISTANCE_TO_BLACK).sq < (dist ((60 : ℚ), 7, 7) ((10 : ℚ), 7, 7)).sq
      norm_num [NNR.ofRat, dist, MIN_DISTANCE_TO_BLACK]
    have hc4 : NNR.ofRat MIN_DISTANCE_TO_BLACK < dist ((60 : ℚ), 37, 7) ((10 : ℚ), 7, 7) := by
      show (NNR.ofRat MIN_DISTANCE_TO_BLACK).sq < (dist ((60 : ℚ), 37, 7) ((10 : ℚ), 7, 7)).sq
      norm_num [NNR.ofRat, dist, MIN_DISTANCE_TO_BLACK]
    unfold no_black_pool_claimed
    rw [hpool,
      show ([((10 : ℚ), 7, 7), ((60 : ℚ), 7, 7), ((60 : ℚ), 37, 7)] : List Color).getD 0 colDflt
        = ((10 : ℚ), 7, 7) from rfl]
    simp only [List.filter_cons, List.filter_nil]
    rw [if_pos (by simpa using hc3), if_pos (by simpa using hc4)]

end Glasbey

namespace Glasbey

theorem greedy_step_selects_argmax_witness :
    ((greedyStep [((7 : ℚ), 7, 7), ((9 : ℚ), 7, 7)]
        ([((1 : ℚ), 1, 1)], [NNR.ofRat 1000, NNR.ofRat 1000])).2
      = update_distances [((7 : ℚ), 7, 7), ((9 : ℚ), 7, 7)]
          (([((1 : ℚ), 1, 1)] : List Color).getLastD colDflt)
          [NNR.ofRat 1000, NNR.ofRat 1000])
  ∧ (∀ k, k < ([((7 : ℚ), 7, 7), ((9 : ℚ), 7, 7)] : List Color).length →
      (greedyStep [((7 : ℚ), 7, 7), ((9 : ℚ), 7, 7)]
          ([((1 : ℚ), 1, 1)], [NNR.ofRat 1000, NNR.ofRat 1000])).2.getD k dDflt
        = min (([NNR.ofRat 1000, NNR.ofRat 1000] : List NNR).getD k dDflt)
            (dist (([((7 : ℚ), 7, 7), ((9 : ℚ), 7, 7)] : List Color).getD k colDflt)
              (([((1 : ℚ), 1, 1)] : List Color).getLastD colDflt)))
  ∧ ((greedyStep [((7 : ℚ), 7, 7), ((9 : ℚ), 7, 7)]
        ([((1 : ℚ), 1, 1)], [NNR.ofRat 1000, NNR.ofRat 1000])).1
      = [((1 : ℚ), 1, 1)]
        ++ [([((7 : ℚ), 7, 7), ((9 : ℚ), 7, 7)] : List Color).getD
            (argmax ((greedyStep [((7 : ℚ), 7, 7), ((9 : ℚ), 7, 7)]
              ([((1 : ℚ), 1, 1)], [NNR.ofRat 1000, NNR.ofRat 1000])).2)) colDflt])
  ∧ argmax ((greedyStep [((7 : ℚ), 7, 7), ((9 : ℚ), 7, 7)]
        ([((1 : ℚ), 1, 1)], [NNR.ofRat 1000, NNR.ofRat 1000])).2)
      < ([((7 : ℚ), 7, 7), ((9 : ℚ), 7, 7)] : List Color).length
  ∧ (∀ k, k < ([((7 : ℚ), 7, 7), ((9 : ℚ), 7, 7)] : List Color).length →
      (greedyStep [((7 : ℚ), 7, 7), ((9 : ℚ), 7, 7)]
          ([((1 : ℚ), 1, 1)], [NNR.ofRat 1000, NNR.ofRat 1000])).2.getD k dDflt
        ≤ (greedyStep [((7 : ℚ), 7, 7), ((9 : ℚ), 7, 7)]
            ([((1 : ℚ), 1, 1)], [NNR.ofRat 1000, NNR.ofRat 1000])).2.getD
            (argmax ((greedyStep [((7 : ℚ), 7, 7), ((9 : ℚ), 7, 7)]
              ([((1 : ℚ), 1, 1)], [NNR.ofRat 1000, NNR.ofRat 1000])).2)) dDflt)
  ∧ (∀ k, k < argmax ((greedyStep [((7 : ℚ), 7, 7), ((9 : ℚ), 7, 7)]
        ([((1 : ℚ), 1, 1)], [NNR.ofRat 1000, NNR.ofRat 1000])).2) →
      (greedyStep [((7 : ℚ), 7, 7), ((9 : ℚ), 7, 7)]
          ([((1 : ℚ), 1, 1)], [NNR.ofRat 1000, NNR.ofRat 1000])).2.getD k dDflt
        < (greedyStep [((7 : ℚ), 7, 7), ((9 : ℚ), 7, 7)]
            ([((1 : ℚ), 1, 1)], [NNR.ofRat 1000, NNR.ofRat 1000])).2.getD
            (argmax ((greedyStep [((7 : ℚ), 7, 7), ((9 : ℚ), 7, 7)]
              ([((1 : ℚ), 1, 1)], [NNR.ofRat 1000, NNR.ofRat 1000])).2)) dDflt) :=
  greedy_step_selects_argmax [((7 : ℚ), 7, 7), ((9 : ℚ), 7, 7)] [((1 : ℚ), 1, 1)]
    [NNR.ofRat 1000, NNR.ofRat 1000] rfl (by decide)

theorem distance_field_init_monotone_witness :
    (init_distances [((7 : ℚ), 7, 7), ((9 : ℚ), 7, 7)]
        [((1 : ℚ), 1, 1), ((2 : ℚ), 2, 2)]).length
      = ([((7 : ℚ), 7, 7), ((9 : ℚ), 7, 7)] : List Color).length
  ∧ (init_distances [((7 : ℚ), 7, 7), ((9 : ℚ), 7, 7)]
        [((1 : ℚ), 1, 1), ((2 : ℚ), 2, 2)]).getD 0 dDflt ≤ NNR.ofRat 1000
  ∧ (∀ c ∈ ([((1 : ℚ), 1, 1), ((2 : ℚ), 2, 2)] : List Color).dropLast,
      (init_distances [((7 : ℚ), 7, 7), ((9 : ℚ), 7, 7)]
          [((1 : ℚ), 1, 1), ((2 : ℚ), 2, 2)]).getD 0 dDflt
        ≤ dist (([((7 : ℚ), 7, 7), ((9 : ℚ), 7, 7)] : List Color).getD 0 colDflt) c)
  ∧ ((init_distances [((7 : ℚ), 7, 7), ((9 : ℚ), 7, 7)]
        [((1 : ℚ), 1, 1), ((2 : ℚ), 2, 2)]).getD 0 dDflt = NNR.ofRat 1000
      ∨ ∃ c ∈ ([((1 : ℚ), 1, 1), ((2 : ℚ), 2, 2)] : List Color).dropLast,
          (init_distances [((7 : ℚ), 7, 7), ((9 : ℚ), 7, 7)]
              [((1 : ℚ), 1, 1), ((2 : ℚ), 2, 2)]).getD 0 dDflt
            = dist (([((7 : ℚ), 7, 7), ((9 : ℚ), 7, 7)] : List Color).getD 0 colDflt) c)
  ∧ (greedyStep [((7 : ℚ), 7, 7), ((9 : ℚ), 7, 7)]
        ([((1 : ℚ), 1, 1), ((2 : ℚ), 2, 2)], [NNR.ofRat 1000, NNR.ofRat 1000])).2.getD 0 dDflt
      ≤ ([NNR.ofRat 1000, NNR.ofRat 1000] : List NNR).getD 0 dDflt :=
  distance_field_init_monotone [((7 : ℚ), 7, 7), ((9 : ℚ), 7, 7)]
    [((1 : ℚ), 1, 1), ((2 : ℚ), 2, 2)] [NNR.ofRat 1000, NNR.ofRat 1000] 0
    (by decide) rfl

theorem generate_palette_extension_stable_witness :
    ((generate_palette id
        (generate_palette id
          ⟨[((7 : ℚ), 7, 7), ((9 : ℚ), 7, 7)], [((1 : ℚ), 1, 1)], false⟩ 1).builder
        2).output.take 1
      = (generate_palette id
          ⟨[((7 : ℚ), 7, 7), ((9 : ℚ), 7, 7)], [((1 : ℚ), 1, 1)], false⟩ 1).output)
  ∧ (∃ r, (generate_palette id
        ⟨[((7 : ℚ), 7, 7), ((9 : ℚ), 7, 7)], [((1 : ℚ), 1, 1)], false⟩ 1).builder.palette
      = (⟨[((7 : ℚ), 7, 7), ((9 : ℚ), 7, 7)], [((1 : ℚ), 1, 1)], false⟩ : Builder).palette
        ++ r)
  ∧ (∃ r, (generate_palette id
        (generate_palette id
          ⟨[((7 : ℚ), 7, 7), ((9 : ℚ), 7, 7)], [((1 : ℚ), 1, 1)], false⟩ 1).builder
        2).builder.palette
      = (generate_palette id
          ⟨[((7 : ℚ), 7, 7), ((9 : ℚ), 7, 7)], [((1 : ℚ), 1, 1)], false⟩ 1).builder.palette
        ++ r) :=
  generate_palette_extension_stable id
    ⟨[((7 : ℚ), 7, 7), ((9 : ℚ), 7, 7)], [((1 : ℚ), 1, 1)], false⟩ 1 2
    (by decide) (by decide)

theorem generate_palette_noop_idempotent_witness :
    (1 ≤ (⟨[((7 : ℚ), 7, 7), ((9 : ℚ), 7, 7)], [((1 : ℚ), 1, 1)], false⟩ : Builder).palette.length →
        generate_palette id ⟨[((7 : ℚ), 7, 7), ((9 : ℚ), 7, 7)], [((1 : ℚ), 1, 1)], false⟩ 1
          = ⟨⟨[((7 : ℚ), 7, 7), ((9 : ℚ), 7, 7)], [((1 : ℚ), 1, 1)], false⟩,
            ((⟨[((7 : ℚ), 7, 7), ((9 : ℚ), 7, 7)], [((1 : ℚ), 1, 1)], false⟩ : Builder).palette.take 1).map id,
            none⟩)
  ∧ (generate_palette id
        (generate_palette id
          ⟨[((7 : ℚ), 7, 7), ((9 : ℚ), 7, 7)], [((1 : ℚ), 1, 1)], false⟩ 1).builder 1).output
      = (generate_palette id
          ⟨[((7 : ℚ), 7, 7), ((9 : ℚ), 7, 7)], [((1 : ℚ), 1, 1)], false⟩ 1).output
  ∧ (generate_palette id
        (generate_palette id
          ⟨[((7 : ℚ), 7, 7), ((9 : ℚ), 7, 7)], [((1 : ℚ), 1, 1)], false⟩ 1).builder 1).builder
      = (generate_palette id
          ⟨[((7 : ℚ), 7, 7), ((9 : ℚ), 7, 7)], [((1 : ℚ), 1, 1)], false⟩ 1).builder :=
  generate_palette_noop_idempotent id
    ⟨[((7 : ℚ), 7, 7), ((9 : ℚ), 7, 7)], [((1 : ℚ), 1, 1)], false⟩ 1

end Glasbey
